import Mathlib

/-!
Verification development for the Cuckoo 3 orchestration core.

This file gives a shallow embedding, in Lean 4, of the state-controller
handlers (`core/cuckoo/control.py`), the task-creation logic
(`common/cuckoo/common/task.py`), the per-analysis lock registry
(`_AnalysisLocker` in `core/cuckoo/control.py`) and the QEMU machinery
driver (`machineries/cuckoo/machineries/modules/qemu.py`), and proves the
behavioural properties claimed of them.

Modelling conventions:
* File-system reads become explicit inputs: a result artifact that may be
  missing is an `Option` (or a `Bool` existence flag) in the handler's
  environment.
* Side effects (state writes, error-tracker calls, queueing work, spawning
  processes) become fields of an explicit outcome structure.
* Python truthiness of optional strings is modelled by `Option String`
  with `none` for falsy values (`None`/empty), and an explicit truthiness
  test where the source tests an optional value that can also be an empty
  string.
* Exceptions become `Except`/`Option` results; the distinct `raise` sites
  of the driver are distinguished by constructors of one failure type.
-/

/-! ## Analysis and task states

Modelled from the spec: the `analyses.States` / `task.States` enumerations
live in `cuckoo.common.analyses` (not part of the provided sources) and
`cuckoo.common.task`.  `task.States` is verbatim from
`common/cuckoo/common/task.py`; the analysis states are the members that
`core/cuckoo/control.py` references. -/

inductive AnalysisState where
  | PENDING_IDENTIFICATION
  | WAITING_MANUAL
  | PENDING_PRE
  | NO_SELECTED
  | TASKS_PENDING
  | FINISHED
  | FATAL_ERROR
deriving DecidableEq, Repr

inductive TaskState where
  | pending
  | running
  | run_completed
  | pending_post
  | reported
  | fatal_error
deriving DecidableEq, Repr

/-! ## Identification completion (`handle_identification_done`)

Embeds `core/cuckoo/control.py` lines 76-118.  The environment carries the
`analysis.settings.manual` flag, the identification artifact
(`AnalysisPaths.identjson`; `none` when `os.path.isfile` is false), and
the `cuckoo.state_control.cancel_unidentified` configuration value. -/

structure IdentResult where
  selected : Bool
  identified : Bool
deriving DecidableEq, Repr

structure IdentEnv where
  manual : Bool
  identFile : Option IdentResult
  cancel_unidentified : Bool
deriving DecidableEq, Repr

structure IdentOutcome where
  /-- value of `analysis.state` after the handler returns -/
  finalState : AnalysisState
  /-- messages passed to `errtracker.fatal_error` -/
  fatalErrors : List String
  /-- whether `processing_handler.pre_analysis` was called -/
  preQueued : Bool
deriving DecidableEq, Repr

def handle_identification_done (env : IdentEnv) : IdentOutcome :=
  if env.manual then
    { finalState := .WAITING_MANUAL, fatalErrors := [], preQueued := false }
  else
    match env.identFile with
    | none =>
        { finalState := .FATAL_ERROR
          fatalErrors := ["Failed to read identification stage file. File does not exist"]
          preQueued := false }
    | some ident =>
        if ident.selected then
          { finalState := .PENDING_PRE, fatalErrors := [], preQueued := true }
        else if !ident.identified && !env.cancel_unidentified then
          { finalState := .PENDING_PRE, fatalErrors := [], preQueued := true }
        else
          { finalState := .NO_SELECTED, fatalErrors := [], preQueued := false }

/-! ## Task creation (`task.create_all` / `task._create_task`)

Embeds `common/cuckoo/common/task.py` lines 89-179.  A platform carries its
per-platform route override (`platform_obj.settings.route`); the node
tracker's `nodeinfos.find_support` is a function field returning the
`(has_platform, has_route)` pair (the third component of the source tuple
is unused by `_create_task`).  Directory creation, the strict-container
serialisation and the database bulk insert are effects that do not alter
the returned task list and are not modelled. -/

structure PlatformObj where
  platform : String
  os_version : String
  /-- `platform_obj.settings.route`; `none` for a falsy route -/
  route : Option String
deriving DecidableEq, Repr

structure NodesTracker where
  findSupport : PlatformObj → Option String → Bool × Bool

structure TaskRec where
  number : Nat
  platform : String
  os_version : String
  route : Option String
deriving DecidableEq, Repr

/-- `platform_obj.settings.route or analysis.settings.route` -/
def effective_route (analysisRoute : Option String) (p : PlatformObj) : Option String :=
  match p.route with
  | some r => some r
  | none => analysisRoute

/-- `_create_task`, restricted to its decision and returned values; a
`MissingResourceError` becomes `Except.error` with the message. -/
def create_task (nodes : NodesTracker) (analysisRoute : Option String)
    (task_number : Nat) (p : PlatformObj) : Except String TaskRec :=
  let route := effective_route analysisRoute p
  let support := nodes.findSupport p route
  if support.1 = false then
    .error ("No node has machine with: " ++ p.platform)
  else if route.isSome && support.2 = false then
    .error ("No nodes have the combination of platform: " ++ p.platform)
  else
    .ok { number := task_number, platform := p.platform
          os_version := p.os_version, route := route }

/-- condition under which `_create_task` raises `MissingResourceError`
for a platform: no node offers it, or none offers the platform/route
combination -/
def lacks_support (nodes : NodesTracker) (analysisRoute : Option String)
    (p : PlatformObj) : Bool :=
  let route := effective_route analysisRoute p
  let support := nodes.findSupport p route
  !support.1 || (route.isSome && !support.2)

/-- the `for platform in analysis.settings.platforms` loop of `create_all`:
accumulates created tasks and collected `MissingResourceError` reasons;
`tasknum` is incremented only on success. -/
def create_all_go (nodes : NodesTracker) (analysisRoute : Option String) :
    List PlatformObj → Nat → List TaskRec × List String
  | [], _ => ([], [])
  | p :: ps, tasknum =>
    match create_task nodes analysisRoute tasknum p with
    | .ok t =>
        let rest := create_all_go nodes analysisRoute ps (tasknum + 1)
        (t :: rest.1, rest.2)
    | .error e =>
        let rest := create_all_go nodes analysisRoute ps tasknum
        (rest.1, e :: rest.2)

/-- `create_all`: raises `NoTasksCreatedError` (carrying the collected
reasons) when no task could be created, otherwise returns the tasks and
the resource errors. -/
def create_all (nodes : NodesTracker) (analysisRoute : Option String)
    (platforms : List PlatformObj) : Except (List String) (List TaskRec × List String) :=
  let r := create_all_go nodes analysisRoute platforms 1
  if r.1.isEmpty then .error r.2 else .ok r

/-! ## Pre completion (`handle_pre_done`)

Embeds `core/cuckoo/control.py` lines 121-186.  `platforms` is the
analysis's platform list at the point `create_all` runs (after
`overwrite_platforms` / `determine_final_platforms`, which live in the
`analyses` module outside the provided sources and only rewrite the
settings read here). -/

structure PreEnv where
  /-- `os.path.isfile(AnalysisPaths.prejson(...))` -/
  preExists : Bool
  platforms : List PlatformObj
  analysisRoute : Option String
  nodes : NodesTracker

structure PreOutcome where
  finalState : AnalysisState
  /-- messages passed to `errtracker.fatal_error` -/
  fatalErrors : List String
  /-- messages passed to `errtracker.add_error` -/
  addedErrors : List String
  createdTasks : List TaskRec
  /-- tasks passed to `scheduler.queue_many` -/
  queuedTasks : List TaskRec
deriving DecidableEq, Repr

def handle_pre_done (env : PreEnv) : PreOutcome :=
  if env.preExists = false then
    { finalState := .FATAL_ERROR
      fatalErrors := ["Pre processing stage file does not exist."]
      addedErrors := [], createdTasks := [], queuedTasks := [] }
  else
    match create_all env.nodes env.analysisRoute env.platforms with
    | .error reasons =>
        { finalState := .FATAL_ERROR
          fatalErrors := ["Failed to create tasks for analysis. No tasks were created"]
          addedErrors := reasons, createdTasks := [], queuedTasks := [] }
    | .ok (tasks, resource_errs) =>
        { finalState := .TASKS_PENDING
          fatalErrors := []
          addedErrors := resource_errs
          createdTasks := tasks
          queuedTasks := tasks }

/-! ## Post completion (`handle_post_done`, `set_failed` post branch,
`update_final_analysis_state`, `task.has_unfinished_tasks`)

Embeds `core/cuckoo/control.py` lines 217-257 and 291-302 together with
`common/cuckoo/common/task.py` lines 222-237.  The database rows of this
analysis's tasks are a list of `(task id, state)` pairs;
`task.write_changes` updates the current task's row before
`update_final_analysis_state` queries it. -/

def is_unfinished : TaskState → Bool
  | .pending => true
  | .running => true
  | .pending_post => true
  | _ => false

/-- `has_unfinished_tasks`: the count of rows of this analysis in states
`pending`, `running`, `pending_post` is positive. -/
def has_unfinished_tasks (rows : List (String × TaskState)) : Bool :=
  rows.any (fun r => is_unfinished r.2)

/-- database effect of `task.write_changes` after `task.state` was set -/
def db_update_state (rows : List (String × TaskState)) (tid : String)
    (st : TaskState) : List (String × TaskState) :=
  rows.map (fun r => if r.1 = tid then (r.1, st) else r)

/-- `update_final_analysis_state`: returns the analysis state afterwards
and whether `nodes.delete_completed_analysis` was requested. -/
def update_final_analysis_state (a0 : AnalysisState)
    (rows : List (String × TaskState)) : AnalysisState × Bool :=
  if has_unfinished_tasks rows = false then (.FINISHED, true) else (a0, false)

structure PostEnv where
  /-- `os.path.isfile(TaskPaths.report(...))` -/
  reportExists : Bool
  task_id : String
  /-- `post.score` of the report, when it exists -/
  post_score : Int
  /-- rows of this analysis's tasks in the relational index,
  including the current task's row -/
  dbRows : List (String × TaskState)

structure PostOutcome where
  taskState : TaskState
  /-- `task.score` when it was assigned -/
  taskScore : Option Int
  finalAnalysisState : AnalysisState
  fatalErrors : List String
  /-- whether `nodes.delete_completed_analysis` was called -/
  cleanupRequested : Bool
  dbAfter : List (String × TaskState)
deriving DecidableEq, Repr

def handle_post_done (a0 : AnalysisState) (env : PostEnv) : PostOutcome :=
  if env.reportExists = false then
    { taskState := .fatal_error, taskScore := none
      finalAnalysisState := a0
      fatalErrors := ["Post processing report file does not exist"]
      cleanupRequested := false
      dbAfter := db_update_state env.dbRows env.task_id .fatal_error }
  else
    let db1 := db_update_state env.dbRows env.task_id .reported
    let fin := update_final_analysis_state a0 db1
    { taskState := .reported, taskScore := some env.post_score
      finalAnalysisState := fin.1
      fatalErrors := []
      cleanupRequested := fin.2
      dbAfter := db1 }

/-- the `worktype == "post"` branch of `set_failed`: the task is forced to
`fatal_error`, its row is written, and the final-analysis-state check
runs. -/
def set_failed_post (a0 : AnalysisState) (env : PostEnv) : PostOutcome :=
  let db1 := db_update_state env.dbRows env.task_id .fatal_error
  let fin := update_final_analysis_state a0 db1
  { taskState := .fatal_error, taskScore := none
    finalAnalysisState := fin.1
    fatalErrors := []
    cleanupRequested := fin.2
    dbAfter := db1 }

example :
    handle_identification_done { manual := true, identFile := none, cancel_unidentified := true } =
      { finalState := .WAITING_MANUAL, fatalErrors := [], preQueued := false } := by
  decide

/-! ## Helper lemmas for the controller claims -/

/-- tasks of the same analysis other than `tid` that are still unfinished -/
def siblings_unfinished (rows : List (String × TaskState)) (tid : String) : Bool :=
  rows.any (fun r => !(r.1 == tid) && is_unfinished r.2)

lemma has_unfinished_update_terminal (rows : List (String × TaskState))
    (tid : String) (st : TaskState) (h : is_unfinished st = false) :
    has_unfinished_tasks (db_update_state rows tid st) = siblings_unfinished rows tid := by
  induction rows with
  | nil => rfl
  | cons r rest ih =>
    simp only [db_update_state, List.map_cons, has_unfinished_tasks, List.any_cons,
      siblings_unfinished] at *
    by_cases hr : r.1 = tid
    · simp [hr, h, ih]
    · have hb : (r.1 == tid) = false := by simp [hr]
      simp [hb, hr, ih]

lemma create_all_go_lengths (nodes : NodesTracker) (ar : Option String) :
    ∀ (ps : List PlatformObj) (n : Nat),
      (create_all_go nodes ar ps n).1.length + ps.countP (lacks_support nodes ar) = ps.length ∧
      (create_all_go nodes ar ps n).2.length = ps.countP (lacks_support nodes ar) := by
  intro ps
  induction ps with
  | nil => intro n; simp [create_all_go]
  | cons p t ih =>
    intro n
    obtain ⟨ihs1, ihs2⟩ := ih (n + 1)
    obtain ⟨ihe1, ihe2⟩ := ih n
    rcases hs : nodes.findSupport p (effective_route ar p) with ⟨hp, hr⟩
    cases hp <;> cases hr <;> cases hio : (effective_route ar p).isSome <;>
      simp [create_all_go, create_task, lacks_support, hs, hio] <;>
      omega

/-! ## Claim theorems: state controller -/

/-- C3: identification completion preserves exactly three branches: a
target identified and selected moves the analysis to `PENDING_PRE` and
queues pre-analysis; identified but not selected terminates at
`NO_SELECTED`; no target identified moves to `PENDING_PRE` when the
configuration does not cancel unidentified submissions and to
`NO_SELECTED` otherwise. -/
theorem claim_C3_identification_three_branches (ident : IdentResult) (cancel : Bool) :
    (ident.identified = true → ident.selected = true →
      handle_identification_done ⟨false, some ident, cancel⟩ =
        { finalState := .PENDING_PRE, fatalErrors := [], preQueued := true }) ∧
    (ident.identified = true → ident.selected = false →
      handle_identification_done ⟨false, some ident, cancel⟩ =
        { finalState := .NO_SELECTED, fatalErrors := [], preQueued := false }) ∧
    (ident.identified = false → ident.selected = false →
      handle_identification_done ⟨false, some ident, cancel⟩ =
        (if cancel then
          { finalState := .NO_SELECTED, fatalErrors := [], preQueued := false }
        else
          { finalState := .PENDING_PRE, fatalErrors := [], preQueued := true })) := by
  obtain ⟨sel, idf⟩ := ident
  cases sel <;> cases idf <;> cases cancel <;>
    simp [handle_identification_done]

/-- Witness for C3 at concrete inputs, one per branch. -/
theorem claim_C3_witness :
    handle_identification_done ⟨false, some ⟨true, true⟩, false⟩ =
      { finalState := .PENDING_PRE, fatalErrors := [], preQueued := true } ∧
    handle_identification_done ⟨false, some ⟨false, true⟩, true⟩ =
      { finalState := .NO_SELECTED, fatalErrors := [], preQueued := false } ∧
    handle_identification_done ⟨false, some ⟨false, false⟩, true⟩ =
      { finalState := .NO_SELECTED, fatalErrors := [], preQueued := false } := by
  refine ⟨(claim_C3_identification_three_branches ⟨true, true⟩ false).1 rfl rfl,
    (claim_C3_identification_three_branches ⟨false, true⟩ true).2.1 rfl rfl, ?_⟩
  have h := (claim_C3_identification_three_branches ⟨false, false⟩ true).2.2 rfl rfl
  simpa using h

/-- C10: for a manual analysis the identification-completion handler sets
the state to `WAITING_MANUAL` and returns without reading the
identification artifact: the outcome is the same for every artifact value
(including a missing one), records no error and never reaches
`FATAL_ERROR`. -/
theorem claim_C10_manual_mode_ignores_artifact (f : Option IdentResult) (cancel : Bool) :
    handle_identification_done ⟨true, f, cancel⟩ =
      { finalState := .WAITING_MANUAL, fatalErrors := [], preQueued := false } := rfl

/-- C4: each stage-completion handler, on a missing result artifact, sets
the owning entity to its fatal state, records a human-readable diagnostic
via the error tracker, and performs no further transition work (no
pre-analysis queued, no tasks created or queued, no final-analysis-state
update or cleanup).  For identification this concerns the non-manual path:
a manual analysis parks at `WAITING_MANUAL` before the artifact is read. -/
theorem claim_C4_missing_artifact_forces_fatal :
    (∀ cancel : Bool,
      handle_identification_done ⟨false, none, cancel⟩ =
        { finalState := .FATAL_ERROR
          fatalErrors := ["Failed to read identification stage file. File does not exist"]
          preQueued := false }) ∧
    (∀ (ps : List PlatformObj) (ar : Option String) (nodes : NodesTracker),
      handle_pre_done ⟨false, ps, ar, nodes⟩ =
        { finalState := .FATAL_ERROR
          fatalErrors := ["Pre processing stage file does not exist."]
          addedErrors := [], createdTasks := [], queuedTasks := [] }) ∧
    (∀ (a0 : AnalysisState) (tid : String) (score : Int)
        (rows : List (String × TaskState)),
      handle_post_done a0 ⟨false, tid, score, rows⟩ =
        { taskState := .fatal_error, taskScore := none
          finalAnalysisState := a0
          fatalErrors := ["Post processing report file does not exist"]
          cleanupRequested := false
          dbAfter := db_update_state rows tid .fatal_error }) :=
  ⟨fun _ => rfl, fun _ _ _ => rfl, fun _ _ _ _ => rfl⟩

/-- C2: when a task's post-analysis completion (`handle_post_done`) or
failure (`set_failed` post branch) is processed and no sibling task of the
analysis is still unfinished, the analysis state becomes `FINISHED` and
remote cleanup is requested; when at least one sibling is still
unfinished, the final-state check leaves the analysis state unchanged and
requests no cleanup. -/
theorem claim_C2_last_task_finishes_analysis (a0 : AnalysisState) (tid : String)
    (score : Int) (rows : List (String × TaskState)) :
    ((handle_post_done a0 ⟨true, tid, score, rows⟩).finalAnalysisState,
        (handle_post_done a0 ⟨true, tid, score, rows⟩).cleanupRequested) =
      (if siblings_unfinished rows tid then (a0, false) else (.FINISHED, true)) ∧
    ((set_failed_post a0 ⟨true, tid, score, rows⟩).finalAnalysisState,
        (set_failed_post a0 ⟨true, tid, score, rows⟩).cleanupRequested) =
      (if siblings_unfinished rows tid then (a0, false) else (.FINISHED, true)) := by
  have hrep := has_unfinished_update_terminal rows tid .reported rfl
  have hfat := has_unfinished_update_terminal rows tid .fatal_error rfl
  constructor <;>
  · simp only [handle_post_done, set_failed_post, update_final_analysis_state, hrep, hfat]
    cases hsib : siblings_unfinished rows tid <;> simp [hsib]

/-- C1: task creation is partial-failure tolerant.  For `N` requested
platforms of which `M` lack resource support, `create_all` creates exactly
`N - M` tasks and collects exactly `M` reasons, and `handle_pre_done`
records those `M` reasons, moves the analysis to `TASKS_PENDING` exactly
when `N - M > 0` and to `FATAL_ERROR` when zero tasks could be created,
and queues exactly the created tasks (siblings of failed platforms
proceed). -/
theorem claim_C1_partial_failure_tolerant (ps : List PlatformObj) (ar : Option String)
    (nodes : NodesTracker) :
    ((create_all_go nodes ar ps 1).1.length
        = ps.length - ps.countP (lacks_support nodes ar)) ∧
    ((create_all_go nodes ar ps 1).2.length
        = ps.countP (lacks_support nodes ar)) ∧
    ((handle_pre_done ⟨true, ps, ar, nodes⟩).createdTasks.length
        = ps.length - ps.countP (lacks_support nodes ar)) ∧
    ((handle_pre_done ⟨true, ps, ar, nodes⟩).addedErrors.length
        = ps.countP (lacks_support nodes ar)) ∧
    ((handle_pre_done ⟨true, ps, ar, nodes⟩).finalState
        = if 0 < ps.length - ps.countP (lacks_support nodes ar) then
            .TASKS_PENDING else .FATAL_ERROR) ∧
    ((handle_pre_done ⟨true, ps, ar, nodes⟩).queuedTasks
        = (handle_pre_done ⟨true, ps, ar, nodes⟩).createdTasks) := by
  obtain ⟨h1, h2⟩ := create_all_go_lengths nodes ar ps 1
  rcases hg : create_all_go nodes ar ps 1 with ⟨ts, es⟩
  rw [hg] at h1 h2
  simp only at h1 h2
  cases ts with
  | nil =>
    simp only [List.length_nil, Nat.zero_add] at h1
    have hz : ps.length - ps.countP (lacks_support nodes ar) = 0 := by omega
    have hca : create_all nodes ar ps = .error es := by
      simp [create_all, hg]
    have hh : handle_pre_done ⟨true, ps, ar, nodes⟩ =
        { finalState := .FATAL_ERROR
          fatalErrors := ["Failed to create tasks for analysis. No tasks were created"]
          addedErrors := es, createdTasks := [], queuedTasks := [] } := by
      simp [handle_pre_done, hca]
    rw [hh]
    exact ⟨by simp [hz], h2, by simp [hz], h2, by simp [hz], rfl⟩
  | cons t ts' =>
    simp only [List.length_cons] at h1
    have hpos : 0 < ps.length - ps.countP (lacks_support nodes ar) := by omega
    have hca : create_all nodes ar ps = .ok (t :: ts', es) := by
      simp [create_all, hg]
    have hh : handle_pre_done ⟨true, ps, ar, nodes⟩ =
        { finalState := .TASKS_PENDING
          fatalErrors := []
          addedErrors := es
          createdTasks := t :: ts'
          queuedTasks := t :: ts' } := by
      simp [handle_pre_done, hca]
    rw [hh]
    exact ⟨by simp; omega, h2, by simp; omega, h2, by simp [hpos], rfl⟩

/-! ## QEMU machinery driver (`machineries/cuckoo/machineries/modules/qemu.py`)

The normalized machine states are the members of `machines.States`
referenced by the driver (`machines` lives outside the provided sources).
The driver's distinct `raise` sites are distinguished by constructors of
`MachineryFailure`. -/

inductive MachinesState where
  | POWEROFF
  | STARTING
  | PAUSED
  | RUNNING
deriving DecidableEq, Repr

inductive MachineryFailure where
  /-- `MachineUnexpectedStateError` in `restore_start` -/
  | unexpectedState
  /-- `MachineStateReachedError` in `stop` -/
  | stateReached
  /-- `MachineryUnhandledStateError` in `state` -/
  | unhandledState
  /-- `MachineryError` in `state` for a QMP failure while running -/
  | qmpCommError
  /-- `MachineryError` in `_make_disposable_disk` -/
  | diskCreateFailed
  /-- `MachineryError` in `_make_command` for an unknown compression -/
  | unknownCompression
  /-- `MachineryError` when `subprocess.Popen` raises `OSError` -/
  | startCommandFailed
  /-- `MachineryError` when the QEMU process exits during startup -/
  | earlyExit
  /-- `MachineryError` when the QMP connect fails during startup -/
  | qmpConnectFailed
  /-- `MachineryError` in `kill_process` when `communicate` times out -/
  | killTimeout
deriving DecidableEq, Repr

/-! ## QMP message records and `QMPClient.wait_read_return` (lines 71-82)

A QMP record is a parsed JSON object, i.e. a list of key/value pairs; the
values are a small JSON value type with Python truthiness.  Reads are
modelled as the sequence of records obtainable on the connection, each
paired with the value of `time.monotonic() - start` observed right after
reading it; an exhausted sequence corresponds to the underlying
`timeout_read_response` raising `IPCError` (wrapped into `QMPError` by
`read`). -/

inductive JVal where
  | null
  | jbool (b : Bool)
  | jnum (n : Int)
  | jstr (s : String)
  | jarr (xs : List JVal)
  | jobj (kvs : List (String × JVal))

/-- Python truthiness of a JSON value -/
def JVal.truthy : JVal → Bool
  | .null => false
  | .jbool b => b
  | .jnum n => n != 0
  | .jstr s => !s.isEmpty
  | .jarr xs => !xs.isEmpty
  | .jobj kvs => !kvs.isEmpty

inductive QMPFail where
  /-- `QMPError` raised by `read` when the underlying read fails -/
  | readFailed
  /-- `QMPError "Timeout waiting for return"` -/
  | timedOut
deriving DecidableEq, Repr

/-- `mes.get("return")` followed by the `if ret:` truthiness test: the
value returned by `wait_read_return` for this record, if any -/
def truthy_return (mes : List (String × JVal)) : Option JVal :=
  match mes.lookup "return" with
  | some v => if v.truthy then some v else none
  | none => none

/-- `wait_read_return`: reads records, returns `ret = mes.get("return")`
as soon as it is truthy, otherwise checks the elapsed time against the
timeout and reads again. -/
def wait_read_return (timeout : Nat) :
    List (List (String × JVal) × Nat) → Except QMPFail JVal
  | [] => .error .readFailed
  | (mes, elapsed) :: rest =>
    match truthy_return mes with
    | some v => .ok v
    | none =>
        if timeout ≤ elapsed then .error .timedOut
        else wait_read_return timeout rest

/-! ## `QEMU.state` (lines 515-539) with `_QEMUMachine.process_running`
(lines 155-163)

`process_running` is called twice: once up front and once inside the
`except QMPError` handler (the process may exit in between), so the
environment carries the two poll results separately. -/

/-- `process_running`: false when no process is tracked or `poll()`
reports an exit code -/
def process_running (tracked : Bool) (exited : Bool) : Bool :=
  tracked && !exited

/-- the `statemapping` dict -/
def statemapping (s : String) : Option MachinesState :=
  if s = "inmigrate" then some .STARTING
  else if s = "postmigrate" then some .PAUSED
  else if s = "paused" then some .PAUSED
  else if s = "running" then some .RUNNING
  else none

structure StateEnv where
  /-- `self.process` is set -/
  tracked : Bool
  /-- `poll()` reports an exit at the first `process_running` call -/
  exitedFirst : Bool
  /-- result of `vm.qmp.query_status()`: the status string, or a
  `QMPError` -/
  qmpStatus : Except Unit String
  /-- `poll()` reports an exit at the re-check inside `except QMPError` -/
  exitedRetry : Bool

def qemu_state (env : StateEnv) : Except MachineryFailure MachinesState :=
  if process_running env.tracked env.exitedFirst = false then .ok .POWEROFF
  else
    match env.qmpStatus with
    | .error _ =>
        if process_running env.tracked env.exitedRetry = false then .ok .POWEROFF
        else .error .qmpCommError
    | .ok s =>
        match statemapping s with
        | none => .error .unhandledState
        | some st => .ok st

/-! ## Claim theorems: QMP client and state query -/

/-- C5 (amended): `wait_read_return` returns the value of the `"return"`
field of the first record whose `"return"` value is truthy (non-empty),
skipping every record whose `"return"` field is absent, or present but
falsy; when no record read before the timeout expires has a truthy
`"return"`, it raises a `QMPError` (timeout or read failure) instead of
returning, even if a suitable record would arrive later. -/
theorem claim_C5_wait_read_return_behaviour (timeout : Nat)
    (pre post msgs rest : List (List (String × JVal) × Nat))
    (m x : List (String × JVal) × Nat) (v : JVal) :
    ((∀ y ∈ pre, truthy_return y.1 = none) → (∀ y ∈ pre, y.2 < timeout) →
      truthy_return m.1 = some v →
      wait_read_return timeout (pre ++ m :: post) = .ok v) ∧
    ((∀ y ∈ msgs, truthy_return y.1 = none) →
      ∃ e, wait_read_return timeout msgs = .error e) ∧
    ((∀ y ∈ pre, truthy_return y.1 = none) → (∀ y ∈ pre, y.2 < timeout) →
      truthy_return x.1 = none → timeout ≤ x.2 →
      wait_read_return timeout (pre ++ x :: rest) = .error .timedOut) := by
  refine ⟨?_, ?_, ?_⟩
  · intro h1 h2 h3
    induction pre with
    | nil =>
      obtain ⟨mes, t⟩ := m
      simp only [List.nil_append, wait_read_return, h3]
    | cons y ys ih =>
      obtain ⟨ymes, yt⟩ := y
      have hy1 := h1 _ (List.mem_cons_self _ _)
      have hy2 := h2 _ (List.mem_cons_self _ _)
      simp only [List.cons_append, wait_read_return, hy1]
      rw [if_neg (by simp at hy2 ⊢; omega)]
      exact ih (fun z hz => h1 z (List.mem_cons_of_mem _ hz))
        (fun z hz => h2 z (List.mem_cons_of_mem _ hz))
  · intro h1
    induction msgs with
    | nil => exact ⟨.readFailed, rfl⟩
    | cons y ys ih =>
      obtain ⟨ymes, yt⟩ := y
      have hy1 := h1 _ (List.mem_cons_self _ _)
      by_cases ht : timeout ≤ yt
      · exact ⟨.timedOut, by simp only [wait_read_return, hy1]; rw [if_pos ht]⟩
      · obtain ⟨e, he⟩ := ih (fun z hz => h1 z (List.mem_cons_of_mem _ hz))
        exact ⟨e, by simp only [wait_read_return, hy1]; rw [if_neg ht]; exact he⟩
  · intro h1 h2 h3 h4
    induction pre with
    | nil =>
      obtain ⟨xmes, xt⟩ := x
      simp only [List.nil_append, wait_read_return, h3]
      rw [if_pos h4]
    | cons y ys ih =>
      obtain ⟨ymes, yt⟩ := y
      have hy1 := h1 _ (List.mem_cons_self _ _)
      have hy2 := h2 _ (List.mem_cons_self _ _)
      simp only [List.cons_append, wait_read_return, hy1]
      rw [if_neg (by simp at hy2 ⊢; omega)]
      exact ih (fun z hz => h1 z (List.mem_cons_of_mem _ hz))
        (fun z hz => h2 z (List.mem_cons_of_mem _ hz))

/-- Witness for C5 at concrete inputs: an interleaved asynchronous event
record is skipped and the truthy `"return"` payload delivered; a stream
with no truthy `"return"` yields an error; a record observed past the
timeout triggers the timeout error despite a later suitable record. -/
theorem claim_C5_witness :
    wait_read_return 60
        [([("event", JVal.jstr "RESUME")], 1),
          ([("return", JVal.jobj [("status", JVal.jstr "running")])], 2)] =
      .ok (JVal.jobj [("status", JVal.jstr "running")]) ∧
    (∃ e, wait_read_return 60 [([("event", JVal.jstr "RESUME")], 1)] = .error e) ∧
    wait_read_return 5
        [([("event", JVal.jstr "RESUME")], 7),
          ([("return", JVal.jobj [("status", JVal.jstr "running")])], 9)] =
      .error .timedOut := by
  refine ⟨?_, ?_, ?_⟩
  · exact (claim_C5_wait_read_return_behaviour 60
      [([("event", JVal.jstr "RESUME")], 1)]
      [] [] []
      ([("return", JVal.jobj [("status", JVal.jstr "running")])], 2)
      ([], 0) (JVal.jobj [("status", JVal.jstr "running")])).1
      (by intro y hy; simp only [List.mem_singleton] at hy; subst hy; rfl)
      (by intro y hy; simp only [List.mem_singleton] at hy; subst hy; decide)
      rfl
  · exact (claim_C5_wait_read_return_behaviour 60 [] []
      [([("event", JVal.jstr "RESUME")], 1)] [] ([], 0) ([], 0) JVal.null).2.1
      (by intro y hy; simp only [List.mem_singleton] at hy; subst hy; rfl)
  · exact (claim_C5_wait_read_return_behaviour 5 [] []
      [] [([("return", JVal.jobj [("status", JVal.jstr "running")])], 9)]
      ([], 0) ([("event", JVal.jstr "RESUME")], 7) JVal.null).2.2
      (by intro y hy; cases hy) (by intro y hy; cases hy) rfl (by decide)

/-- C5 counterexample to the claim as stated: the record
`{"return": {}}` contains a `"return"` field (this is the standard QMP
success response), yet `wait_read_return` does not return its payload:
the `if ret:` truthiness test skips it and the call fails. -/
theorem claim_C5_counterexample :
    ([("return", JVal.jobj [])].lookup "return" = some (JVal.jobj [])) ∧
    wait_read_return 60 [([("return", JVal.jobj [])], 0)] = .error .readFailed :=
  ⟨rfl, rfl⟩

/-- C6: the state query returns `POWEROFF` when no process is tracked or
the tracked process has exited; when the process is confirmed still
running at the re-check, a QMP communication failure is a hard machinery
error; a backend status string absent from `statemapping` is a hard
unhandled-state error. -/
theorem claim_C6_state_query (env : StateEnv) :
    (process_running env.tracked env.exitedFirst = false →
      qemu_state env = .ok .POWEROFF) ∧
    (process_running env.tracked env.exitedFirst = true →
      env.qmpStatus = .error () →
      process_running env.tracked env.exitedRetry = true →
      qemu_state env = .error .qmpCommError) ∧
    (∀ s, process_running env.tracked env.exitedFirst = true →
      env.qmpStatus = .ok s → statemapping s = none →
      qemu_state env = .error .unhandledState) := by
  refine ⟨fun h1 => by simp [qemu_state, h1],
    fun h1 h2 h3 => by simp [qemu_state, h1, h2, h3],
    fun s h1 h2 h3 => by simp [qemu_state, h1, h2, h3]⟩

/-- Witness for C6 at concrete inputs: untracked process, QMP failure
while running, and the unmapped backend status `"suspended"`. -/
theorem claim_C6_witness :
    qemu_state ⟨false, false, .ok "running", false⟩ = .ok .POWEROFF ∧
    qemu_state ⟨true, false, .error (), false⟩ = .error .qmpCommError ∧
    qemu_state ⟨true, false, .ok "suspended", false⟩ = .error .unhandledState :=
  ⟨(claim_C6_state_query _).1 rfl,
    (claim_C6_state_query _).2.1 rfl rfl rfl,
    (claim_C6_state_query _).2.2 "suspended" rfl rfl (by decide)⟩

/-! ## Snapshot compression sniffing and `_make_command` (lines 128-135,
191-196, 218-269)

`File(path).type` (libmagic) is an external input: the lowercased magic
description string drives `snapshot_determine_compression`.  The
`which(...)` results for the decompressor binaries are environment inputs
(`none` when the binary is absent). -/

/-- whether `needle` occurs at the start of `hay` -/
def chars_start_with : List Char → List Char → Bool
  | [], _ => true
  | _ :: _, [] => false
  | a :: as, b :: bs => a == b && chars_start_with as bs

/-- whether `needle` occurs anywhere in `hay` (the Python `in` operator
on strings) -/
def chars_contain (needle : List Char) : List Char → Bool
  | [] => needle.isEmpty
  | c :: t => chars_start_with needle (c :: t) || chars_contain needle t

/-- `needle in hay` for strings -/
def str_contains (hay needle : String) : Bool :=
  chars_contain needle.toList hay.toList

/-- `str.lower()` -/
def str_lower (s : String) : String :=
  ⟨s.toList.map Char.toLower⟩

/-- `snapshot_determine_compression`: returns the pair
`(snapshot_compression, snapshot_compressed)` from their initial values
`(None, True)` given the magic description of the snapshot file. -/
def snapshot_determine_compression (ftype : String) : Option String × Bool :=
  let f := str_lower ftype
  if str_contains f "lz4" then (some "lz4", true)
  else if str_contains f "gzip" then (some "gzip", true)
  else if str_contains f "qemu suspend" then (none, false)
  else (none, true)

/-- Python truthiness of an optional string (`None` and `""` are falsy) -/
def opt_truthy : Option String → Bool
  | none => false
  | some s => !s.isEmpty

/-- `_DECOMPRESS_BINARIES.get(compress_type)`, with the `which` results
for lz4 and gzip as inputs -/
def decompress_binary (lz4_which gzip_which : Option String) :
    Option String → Option String
  | some s => if s = "lz4" then lz4_which else if s = "gzip" then gzip_which else none
  | none => none

/-- `_DECOMPRESS_COMMANDS.get(compress_type)` -/
def decompress_command : Option String → Option String
  | some s =>
      if s = "lz4" then some "%BINARY_PATH% -c -d < %SNAPSHOT_PATH%"
      else if s = "gzip" then some "%BINARY_PATH% -c -d < %SNAPSHOT_PATH%"
      else none
  | none => none

/-- the `_QEMUMachine` attributes `_make_command` reads -/
structure QEMUMachineModel where
  start_args : List String
  qmp_sockpath : String
  snapshot_path : String
  snapshot_compression : Option String
  snapshot_compressed : Bool

/-- `_make_command`: inserts the emulator binary, substitutes the
disposable-disk placeholder, appends the QMP socket arguments, and builds
the `-incoming` argument, raising a `MachineryError` when the snapshot is
compressed with an unknown codec or the decompressor binary is absent. -/
def make_command (lz4_which gzip_which : Option String) (vm : QEMUMachineModel)
    (emulator_path disposable_disk_path : String) :
    Except MachineryFailure (List String) :=
  let command := (emulator_path :: vm.start_args).map
    (fun a => a.replace "%DISPOSABLE_DISK_PATH%" disposable_disk_path)
  let command := command ++
    ["-qmp", "unix:" ++ vm.qmp_sockpath ++ ",server,nowait", "-monitor", "none"]
  if vm.snapshot_compressed then
    let binary := decompress_binary lz4_which gzip_which vm.snapshot_compression
    let args := decompress_command vm.snapshot_compression
    if !opt_truthy binary || !opt_truthy args then
      .error .unknownCompression
    else
      let argstr := ((args.getD "").replace "%BINARY_PATH%" (binary.getD "")).replace
        "%SNAPSHOT_PATH%" vm.snapshot_path
      .ok (command ++ ["-incoming", "exec:" ++ argstr])
  else
    .ok (command ++ ["-incoming", "exec:/bin/cat < " ++ vm.snapshot_path])

/-! ## `QEMU.restore_start` (lines 576-648)

The startup wait loop polls up to five times: each iteration checks
`proc.poll()` and the QMP socket path; the poll results per iteration are
environment inputs. -/

/-- the `while True` startup loop of `restore_start`, with `tries` the
loop counter and `remaining = 5 - tries` as fuel -/
def restore_wait (pollExited sockExists : Nat → Bool) (connectOk : Bool) :
    Nat → Nat → Except MachineryFailure Unit
  | _, 0 => .ok ()
  | tries, r + 1 =>
    if pollExited tries then .error .earlyExit
    else if sockExists tries then
      if connectOk then .ok () else .error .qmpConnectFailed
    else restore_wait pollExited sockExists connectOk (tries + 1) r

structure RestoreEnv where
  /-- result of `self.state(machine)` -/
  machState : MachinesState
  vm : QEMUMachineModel
  emulator_path : String
  lz4_which : Option String
  gzip_which : Option String
  /-- whether the `qemu-img create` subprocess of `_make_disposable_disk`
  succeeds -/
  disk_create_ok : Bool
  disposable_disk_path : String
  /-- whether `subprocess.Popen` starts the VM process without `OSError` -/
  popen_ok : Bool
  pollExited : Nat → Bool
  sockExists : Nat → Bool
  connectOk : Bool

structure RestoreOutcome where
  result : Except MachineryFailure Unit
  /-- whether the backend VM process was spawned (`subprocess.Popen`
  executed without raising) -/
  vmSpawned : Bool
  /-- the command the VM process was spawned with, when it was -/
  spawnCommand : Option (List String)

/-- `restore_start`: requires POWEROFF, creates the disposable disk
(a `qemu-img` helper invocation, not the backend VM), builds the start
command, then spawns the VM process and waits for the QMP socket. -/
def restore_start (env : RestoreEnv) : RestoreOutcome :=
  if env.machState ≠ .POWEROFF then
    { result := .error .unexpectedState, vmSpawned := false, spawnCommand := none }
  else if env.disk_create_ok = false then
    { result := .error .diskCreateFailed, vmSpawned := false, spawnCommand := none }
  else
    match make_command env.lz4_which env.gzip_which env.vm env.emulator_path
        env.disposable_disk_path with
    | .error e => { result := .error e, vmSpawned := false, spawnCommand := none }
    | .ok cmd =>
        if env.popen_ok = false then
          { result := .error .startCommandFailed, vmSpawned := false, spawnCommand := none }
        else
          { result := restore_wait env.pollExited env.sockExists env.connectOk 0 5
            vmSpawned := true
            spawnCommand := some cmd }

/-! ## Claim theorems: restore_start -/

/-- C7: `restore_start` requires the machine to be in POWEROFF, raising
the unexpected-state error (before anything else) otherwise; and when the
snapshot is compressed with a codec the magic did not identify as
supported, or the identified codec's decompressor binary is absent,
`_make_command` raises the machinery configuration error before the
backend VM process is spawned.  A magic string matching none of the known
patterns yields `(None, compressed=True)`, and an identified codec with a
missing `which` result yields a falsy decompressor binary. -/
theorem claim_C7_restore_start_guards (env : RestoreEnv) (ftype : String) :
    (env.machState ≠ .POWEROFF →
      restore_start env =
        { result := .error .unexpectedState, vmSpawned := false, spawnCommand := none }) ∧
    (env.machState = .POWEROFF → env.disk_create_ok = true →
      env.vm.snapshot_compressed = true →
      opt_truthy (decompress_binary env.lz4_which env.gzip_which
        env.vm.snapshot_compression) = false →
      restore_start env =
        { result := .error .unknownCompression, vmSpawned := false, spawnCommand := none }) ∧
    (str_contains (str_lower ftype) "lz4" = false →
      str_contains (str_lower ftype) "gzip" = false →
      str_contains (str_lower ftype) "qemu suspend" = false →
      snapshot_determine_compression ftype = (none, true)) ∧
    (∀ gzip_which : Option String,
      opt_truthy (decompress_binary none gzip_which (some "lz4")) = false) := by
  refine ⟨?_, ?_, ?_, ?_⟩
  · intro h
    simp [restore_start, h]
  · intro h1 h2 h3 h4
    have hmc : make_command env.lz4_which env.gzip_which env.vm env.emulator_path
        env.disposable_disk_path = .error .unknownCompression := by
      simp [make_command, h3, h4]
    simp [restore_start, h1, h2, hmc]
  · intro h1 h2 h3
    simp [snapshot_determine_compression, h1, h2, h3]
  · intro g
    rfl

/-- Witness for C7 at concrete inputs: a RUNNING machine is rejected, and
a POWEROFF machine whose snapshot magic is unrecognized fails with the
compression error before any VM process is spawned. -/
theorem claim_C7_witness :
    restore_start
        { machState := .RUNNING
          vm := { start_args := ["-display", "none", "-drive", "file=%DISPOSABLE_DISK_PATH%"]
                  qmp_sockpath := "/tmp/qmp.sock", snapshot_path := "/vms/w10.memory"
                  snapshot_compression := none, snapshot_compressed := true }
          emulator_path := "/usr/bin/qemu-system-x86_64"
          lz4_which := none, gzip_which := none
          disk_create_ok := true, disposable_disk_path := "/vms/w10_disposable.qcow2"
          popen_ok := true, pollExited := fun _ => false
          sockExists := fun _ => true, connectOk := true } =
      { result := .error .unexpectedState, vmSpawned := false, spawnCommand := none } ∧
    restore_start
        { machState := .POWEROFF
          vm := { start_args := ["-display", "none", "-drive", "file=%DISPOSABLE_DISK_PATH%"]
                  qmp_sockpath := "/tmp/qmp.sock", snapshot_path := "/vms/w10.memory"
                  snapshot_compression := (snapshot_determine_compression "Zstandard compressed data").1
                  snapshot_compressed := (snapshot_determine_compression "Zstandard compressed data").2 }
          emulator_path := "/usr/bin/qemu-system-x86_64"
          lz4_which := none, gzip_which := none
          disk_create_ok := true, disposable_disk_path := "/vms/w10_disposable.qcow2"
          popen_ok := true, pollExited := fun _ => false
          sockExists := fun _ => true, connectOk := true } =
      { result := .error .unknownCompression, vmSpawned := false, spawnCommand := none } := by
  constructor
  · exact (claim_C7_restore_start_guards _ "").1 (by decide)
  · exact (claim_C7_restore_start_guards _ "").2.1 rfl rfl (by decide) (by decide)

/-! ## `QEMU.stop` (lines 650-692) with `_QEMUMachine.kill_process` and
`_QEMUMachine.clean` (lines 137-153, 176-188)

Each call of `process_running` during `stop` samples the live process, so
the environment carries the poll results as a function of the call index;
a counter of `process_running` calls is threaded through the steps.
`kill_process` returns whether a SIGKILL was actually delivered, and
raises when `communicate` does not return within its timeout. -/

/-- `kill_process`: returns immediately when the process is not running,
otherwise sends SIGKILL and reads stderr, raising on a `communicate`
timeout.  The returned Bool records whether SIGKILL was sent. -/
def kill_process (running : Nat → Bool) (completes : Bool) (c : Nat) :
    Except MachineryFailure Bool × Nat :=
  if running c = false then (.ok false, c + 1)
  else if completes then (.ok true, c + 1)
  else (.error .killTimeout, c + 1)

/-- `clean`: kills a still-running process, removes the QMP socket path
and clears the process and QMP client references (the clearing is
reflected in the caller's outcome). -/
def vm_clean (running : Nat → Bool) (completes : Bool) (c : Nat) :
    Except MachineryFailure Bool × Nat :=
  if running c = true then kill_process running completes (c + 1)
  else (.ok false, c + 1)

/-- the grace-window poll loop of `stop` (`tries` capped at 2), entered
with the call counter `c`; returns the resulting `do_kill` flag and the
new counter -/
def stop_poll (running : Nat → Bool) (c : Nat) : Bool × Nat :=
  if running c = false then (false, c + 1)
  else if running (c + 1) = false then (false, c + 2)
  else (true, c + 2)

structure StopEnv where
  /-- result of `self.state(machine)` -/
  machState : MachinesState
  /-- whether the QMP `quit` command was sent without `QMPError` -/
  quitOk : Bool
  /-- result of the n-th `process_running` call during `stop` -/
  running : Nat → Bool
  /-- whether `communicate` returns within its timeout after SIGKILL -/
  killCompletes : Bool

structure StopOutcome where
  result : Except MachineryFailure Unit
  /-- whether `vm.kill_process()` was invoked from the `do_kill` branch -/
  stopKillInvoked : Bool
  /-- whether a SIGKILL was actually delivered (by `stop` or by `clean`) -/
  sigkillSent : Bool
  /-- whether `vm.process` is still set after `stop` returns -/
  finalProcRef : Bool
  /-- whether `vm.qmp` is still set after `stop` returns -/
  finalQmpRef : Bool

/-- computation of the `do_kill` flag in `stop`: `quit` failing forces a
kill; a successful `quit` with the process still running enters the
grace-window poll.  Also returns the `process_running` call counter. -/
def stop_do_kill (env : StopEnv) : Bool × Nat :=
  if env.quitOk then
    if env.running 0 then stop_poll env.running 1 else (false, 1)
  else (true, 0)

/-- `stop`: refuses an already-POWEROFF machine, sends the QMP `quit`,
polls the grace window when the quit succeeded and the process still
runs, escalates to `kill_process` when `do_kill` was set, and always runs
`clean` afterwards. -/
def qemu_stop (env : StopEnv) : StopOutcome :=
  if env.machState = .POWEROFF then
    { result := .error .stateReached, stopKillInvoked := false, sigkillSent := false
      finalProcRef := true, finalQmpRef := true }
  else
    let dk_c := stop_do_kill env
    match (if dk_c.1 then kill_process env.running env.killCompletes dk_c.2
           else (.ok false, dk_c.2)) with
    | (.error e, _) =>
        { result := .error e, stopKillInvoked := dk_c.1, sigkillSent := true
          finalProcRef := true, finalQmpRef := true }
    | (.ok k1, c1) =>
        match vm_clean env.running env.killCompletes c1 with
        | (.error e, _) =>
            { result := .error e, stopKillInvoked := dk_c.1, sigkillSent := k1
              finalProcRef := true, finalQmpRef := true }
        | (.ok k2, _) =>
            { result := .ok (), stopKillInvoked := dk_c.1, sigkillSent := k1 || k2
              finalProcRef := false, finalQmpRef := false }

lemma kill_process_completes (running : Nat → Bool) (c : Nat) :
    kill_process running true c = (.ok (running c), c + 1) := by
  cases h : running c <;> simp [kill_process, h]

lemma vm_clean_completes (running : Nat → Bool) (c : Nat) :
    ∃ k c', vm_clean running true c = (.ok k, c') := by
  by_cases h : running c = true
  · exact ⟨running (c + 1), c + 2, by simp [vm_clean, h, kill_process_completes]⟩
  · exact ⟨false, c + 1, by simp [vm_clean, h]⟩

lemma qemu_stop_clean_exit (env : StopEnv) (hst : env.machState ≠ .POWEROFF)
    (hkill : env.killCompletes = true) :
    ∃ dk sk, qemu_stop env =
      { result := .ok (), stopKillInvoked := dk, sigkillSent := sk
        finalProcRef := false, finalQmpRef := false } := by
  unfold qemu_stop
  rw [if_neg hst, hkill]
  rcases hdk : stop_do_kill env with ⟨dk, c0⟩
  cases dk
  · obtain ⟨k, c', hvc⟩ := vm_clean_completes env.running c0
    refine ⟨false, false || k, ?_⟩
    simp [hvc]
  · obtain ⟨k, c', hvc⟩ := vm_clean_completes env.running (c0 + 1)
    refine ⟨true, env.running c0 || k, ?_⟩
    simp [kill_process_completes, hvc]

/-! ## Claim theorem: stop -/

/-- C8: on a non-POWEROFF machine (and with `communicate` returning after
a kill), `stop` always succeeds, clears the process handle and the QMP
client reference, and the subsequent state query reports POWEROFF;
when the `quit` succeeded and the process exits within the grace window
no forced kill happens at all; when the quit failed or the process
outlived the grace window, the forced-kill path is taken. -/
theorem claim_C8_stop_graceful_and_forced (env : StopEnv)
    (hst : env.machState ≠ .POWEROFF)
    (hkill : env.killCompletes = true)
    (hmono : ∀ k, env.running k = false → env.running (k + 1) = false) :
    ((qemu_stop env).result = .ok () ∧
      (qemu_stop env).finalProcRef = false ∧
      (qemu_stop env).finalQmpRef = false ∧
      qemu_state ⟨(qemu_stop env).finalProcRef, false, .ok "running", false⟩
        = .ok .POWEROFF) ∧
    (env.quitOk = true →
      (env.running 0 = false ∨ env.running 1 = false ∨ env.running 2 = false) →
      (qemu_stop env).stopKillInvoked = false ∧ (qemu_stop env).sigkillSent = false) ∧
    ((env.quitOk = false ∨
        (env.running 0 = true ∧ env.running 1 = true ∧ env.running 2 = true)) →
      (qemu_stop env).stopKillInvoked = true) := by
  refine ⟨?_, ?_, ?_⟩
  · obtain ⟨dk, sk, h⟩ := qemu_stop_clean_exit env hst hkill
    rw [h]
    exact ⟨rfl, rfl, rfl, rfl⟩
  · intro hq hdisj
    cases h0 : env.running 0 with
    | false =>
      have hr1 := hmono 0 h0
      simp [qemu_stop, hst, stop_do_kill, hq, h0, hr1, vm_clean, kill_process]
    | true =>
      cases h1 : env.running 1 with
      | false =>
        have hr2 := hmono 1 h1
        simp [qemu_stop, hst, stop_do_kill, stop_poll, hq, h0, h1, hr2, vm_clean,
          kill_process]
      | true =>
        cases h2 : env.running 2 with
        | false =>
          have hr3 := hmono 2 h2
          simp [qemu_stop, hst, stop_do_kill, stop_poll, hq, h0, h1, h2, hr3,
            vm_clean, kill_process]
        | true =>
          rcases hdisj with h | h | h <;> simp_all
  · intro hdisj
    rcases hdisj with hq | ⟨h0, h1, h2⟩
    · obtain ⟨k, c', hvc⟩ := vm_clean_completes env.running 1
      simp [qemu_stop, hst, stop_do_kill, hq, hkill, kill_process_completes, hvc]
    · cases hquit : env.quitOk with
      | true =>
        obtain ⟨k, c', hvc⟩ := vm_clean_completes env.running 4
        simp [qemu_stop, hst, stop_do_kill, stop_poll, hquit, h0, h1, h2, hkill,
          kill_process_completes, hvc]
      | false =>
        obtain ⟨k, c', hvc⟩ := vm_clean_completes env.running 1
        simp [qemu_stop, hst, stop_do_kill, hquit, hkill,
          kill_process_completes, hvc]

/-- Witness for C8 at concrete inputs: a running machine whose process is
gone right after a successful `quit` is not force-killed and ends
POWEROFF; one whose `quit` fails takes the forced-kill path. -/
theorem claim_C8_witness :
    (qemu_stop ⟨.RUNNING, true, fun _ => false, true⟩).result = .ok () ∧
    (qemu_stop ⟨.RUNNING, true, fun _ => false, true⟩).finalProcRef = false ∧
    (qemu_stop ⟨.RUNNING, true, fun _ => false, true⟩).sigkillSent = false ∧
    (qemu_stop ⟨.RUNNING, false, fun _ => true, true⟩).stopKillInvoked = true := by
  have h1 := claim_C8_stop_graceful_and_forced ⟨.RUNNING, true, fun _ => false, true⟩
    (by decide) rfl (fun k h => rfl)
  have h2 := claim_C8_stop_graceful_and_forced ⟨.RUNNING, false, fun _ => true, true⟩
    (by decide) rfl (fun k h => Bool.noConfusion h)
  exact ⟨h1.1.1, h1.1.2.1, (h1.2.1 rfl (Or.inl rfl)).2, h2.2.2 (Or.inl rfl)⟩

/-! ## The analysis lock registry (`_AnalysisLocker`, lines 466-496)

A Python dict with unique keys is modelled as a function
`String → Option LockEntry`.  Each `_AnalysisLock` object is identified
by a token drawn from a fresh counter, so that "the same lock object" is
expressible; its `waiters` counter is carried alongside.  `inform_work`
is `setdefault` plus `increment_waiters`; `inform_work_done` is a lookup
(raising `KeyError`, modelled as `none`, when the id is absent) plus
`decrement_waiters` and the prune; `get_analysis_lock` is the plain
lookup (`KeyError` as `none`). -/

structure LockEntry where
  token : Nat
  waiters : Nat
deriving DecidableEq, Repr

structure LockerState where
  locks : String → Option LockEntry
  fresh : Nat

def initLocker : LockerState := { locks := fun _ => none, fresh := 0 }

def inform_work (s : LockerState) (id : String) : LockerState :=
  match s.locks id with
  | some e =>
      { locks := fun k => if k = id then some ⟨e.token, e.waiters + 1⟩ else s.locks k
        fresh := s.fresh }
  | none =>
      { locks := fun k => if k = id then some ⟨s.fresh, 1⟩ else s.locks k
        fresh := s.fresh + 1 }

def inform_work_done (s : LockerState) (id : String) : Option LockerState :=
  match s.locks id with
  | none => none
  | some e =>
      if e.waiters - 1 < 1 then
        some { locks := fun k => if k = id then none else s.locks k, fresh := s.fresh }
      else
        some { locks := fun k => if k = id then some ⟨e.token, e.waiters - 1⟩ else s.locks k
               fresh := s.fresh }

def get_analysis_lock (s : LockerState) (id : String) : Option Nat :=
  (s.locks id).map LockEntry.token

/-- one registry call -/
inductive LockEv where
  | work (id : String)
  | done (id : String)
deriving DecidableEq, Repr

def lockerStep (s : LockerState) : LockEv → Option LockerState
  | .work id => some (inform_work s id)
  | .done id => inform_work_done s id

def lockerRunFrom : LockerState → List LockEv → Option LockerState
  | s, [] => some s
  | s, e :: t =>
    match lockerStep s e with
    | none => none
    | some s' => lockerRunFrom s' t

def lockerRun (t : List LockEv) : Option LockerState :=
  lockerRunFrom initLocker t

def evIsWork (id : String) : LockEv → Bool
  | .work i => i == id
  | .done _ => false

def evIsDone (id : String) : LockEv → Bool
  | .work _ => false
  | .done i => i == id

def workCount (t : List LockEv) (id : String) : Nat := t.countP (evIsWork id)

def doneCount (t : List LockEv) (id : String) : Nat := t.countP (evIsDone id)

/-- pending-count bookkeeping for one event -/
def pendStep (pend : String → Nat) : LockEv → (String → Nat)
  | .work id => fun k => if k = id then pend k + 1 else pend k
  | .done id => fun k => if k = id then pend k - 1 else pend k

/-- well-formedness of a call trace: every `inform_work_done(id)` is
preceded by a matching unconsumed `inform_work(id)` -/
def wfGo (pend : String → Nat) : List LockEv → Bool
  | [] => true
  | .work id :: t => wfGo (pendStep pend (.work id)) t
  | .done id :: t => if pend id = 0 then false else wfGo (pendStep pend (.done id)) t

def wfTrace (t : List LockEv) : Bool := wfGo (fun _ => 0) t

def pendAfter (pend : String → Nat) : List LockEv → (String → Nat)
  | [] => pend
  | e :: t => pendAfter (pendStep pend e) t

/-- whether the registry holds an entry for `id` after running the trace -/
def lockerContains (t : List LockEv) (id : String) : Bool :=
  match lockerRun t with
  | some s => (s.locks id).isSome
  | none => false

/-- the lock object (identified by its token) `get_analysis_lock(id)`
returns after running the trace -/
def lockerGet (t : List LockEv) (id : String) : Option Nat :=
  match lockerRun t with
  | some s => get_analysis_lock s id
  | none => none

/-! ## Invariant relating the registry to the pending counts -/

/-- every registered entry's `waiters` equals the number of unconsumed
`inform_work` calls for its id, entries exist exactly for positive
pending counts -/
def lockerInv (pend : String → Nat) (s : LockerState) : Prop :=
  ∀ id, match s.locks id with
    | some e => e.waiters = pend id ∧ 0 < pend id
    | none => pend id = 0

lemma lockerInv_init : lockerInv (fun _ => 0) initLocker := fun _ => rfl

lemma inform_work_locks_same (s : LockerState) (id : String) (e : LockEntry)
    (hs : s.locks id = some e) :
    (inform_work s id).locks = fun k =>
      if k = id then some ⟨e.token, e.waiters + 1⟩ else s.locks k := by
  simp [inform_work, hs]

lemma inform_work_locks_new (s : LockerState) (id : String)
    (hs : s.locks id = none) :
    (inform_work s id).locks = fun k =>
      if k = id then some ⟨s.fresh, 1⟩ else s.locks k := by
  simp [inform_work, hs]


lemma lockerInv_work (pend : String → Nat) (s : LockerState) (id : String)
    (h : lockerInv pend s) :
    lockerInv (pendStep pend (.work id)) (inform_work s id) := by
  intro k
  cases hs : s.locks id with
  | some e =>
    have he := h id
    rw [hs] at he
    rw [inform_work_locks_same s id e hs]
    by_cases hk : k = id
    · subst hk
      simp [pendStep, he.1]
    · simp only [if_neg hk, pendStep]
      exact h k
  | none =>
    have he := h id
    rw [hs] at he
    rw [inform_work_locks_new s id hs]
    by_cases hk : k = id
    · subst hk
      simp [pendStep, he]
    · simp only [if_neg hk, pendStep]
      exact h k

lemma lockerInv_done (pend : String → Nat) (s : LockerState) (id : String)
    (e : LockEntry) (h : lockerInv pend s) (hs : s.locks id = some e) :
    ∃ s', inform_work_done s id = some s' ∧
      lockerInv (pendStep pend (.done id)) s' ∧
      (1 < pend id → s'.locks id = some ⟨e.token, e.waiters - 1⟩) ∧
      (∀ k, k ≠ id → s'.locks k = s.locks k) := by
  have he := h id
  rw [hs] at he
  obtain ⟨hw, hp⟩ := he
  by_cases h1 : e.waiters - 1 < 1
  · refine ⟨{ locks := fun k => if k = id then none else s.locks k, fresh := s.fresh },
      by simp [inform_work_done, hs, h1], ?_, ?_⟩
    · intro k
      by_cases hk : k = id
      · subst hk
        simp [pendStep]
        omega
      · simp only [if_neg hk, pendStep]
        exact h k
    · refine ⟨fun hgt => absurd hgt (by omega), fun k hk => by simp [hk]⟩
  · refine ⟨{ locks := fun k => if k = id then some ⟨e.token, e.waiters - 1⟩ else s.locks k
              fresh := s.fresh },
      by simp [inform_work_done, hs, h1], ?_, ?_⟩
    · intro k
      by_cases hk : k = id
      · subst hk
        simp [pendStep, hw]
        omega
      · simp only [if_neg hk, pendStep]
        exact h k
    · refine ⟨fun _ => by simp, fun k hk => by simp [hk]⟩

lemma lockerRunFrom_inv : ∀ (t : List LockEv) (pend : String → Nat) (s : LockerState),
    lockerInv pend s → wfGo pend t = true →
    ∃ s', lockerRunFrom s t = some s' ∧ lockerInv (pendAfter pend t) s' := by
  intro t
  induction t with
  | nil => exact fun pend s h _ => ⟨s, rfl, h⟩
  | cons e t ih =>
    intro pend s hinv hwf
    cases e with
    | work id =>
      obtain ⟨s', hrun, hinv'⟩ := ih (pendStep pend (.work id)) (inform_work s id)
        (lockerInv_work pend s id hinv) (by simpa [wfGo] using hwf)
      exact ⟨s', by simp [lockerRunFrom, lockerStep, hrun], by simpa [pendAfter] using hinv'⟩
    | done id =>
      have hne : pend id ≠ 0 := by
        by_contra h0
        simp [wfGo, h0] at hwf
      cases hs : s.locks id with
      | none =>
        have := hinv id
        rw [hs] at this
        exact absurd this hne
      | some e =>
        obtain ⟨s1, hdone, hinv1, _, _⟩ := lockerInv_done pend s id e hinv hs
        obtain ⟨s', hrun, hinv'⟩ := ih (pendStep pend (.done id)) s1 hinv1
          (by simpa [wfGo, hne] using hwf)
        exact ⟨s', by simp [lockerRunFrom, lockerStep, hdone, hrun],
          by simpa [pendAfter] using hinv'⟩

lemma pendAfter_counts : ∀ (t : List LockEv) (pend : String → Nat),
    wfGo pend t = true →
    ∀ id, pendAfter pend t id + doneCount t id = pend id + workCount t id := by
  intro t
  induction t with
  | nil =>
    intro pend _ id
    simp [pendAfter, workCount, doneCount]
  | cons e t ih =>
    intro pend hwf id
    cases e with
    | work i =>
      have h := ih (pendStep pend (.work i)) (by simpa [wfGo] using hwf) id
      by_cases hk : i = id
      · subst hk
        simp [pendAfter, pendStep, workCount, doneCount, evIsWork, evIsDone,
          List.countP_cons] at h ⊢
        omega
      · have hik : ¬id = i := fun hh => hk hh.symm
        simp [pendAfter, pendStep, workCount, doneCount, evIsWork, evIsDone,
          List.countP_cons, hk, hik] at h ⊢
        omega
    | done i =>
      have hne : pend i ≠ 0 := by
        by_contra h0
        simp [wfGo, h0] at hwf
      have h := ih (pendStep pend (.done i)) (by simpa [wfGo, hne] using hwf) id
      by_cases hk : i = id
      · subst hk
        simp [pendAfter, pendStep, workCount, doneCount, evIsWork, evIsDone,
          List.countP_cons] at h ⊢
        omega
      · have hik : ¬id = i := fun hh => hk hh.symm
        simp [pendAfter, pendStep, workCount, doneCount, evIsWork, evIsDone,
          List.countP_cons, hk, hik] at h ⊢
        omega

lemma wfGo_append : ∀ (t l : List LockEv) (pend : String → Nat),
    wfGo pend (t ++ l) = true →
    wfGo pend t = true ∧ wfGo (pendAfter pend t) l = true := by
  intro t
  induction t with
  | nil =>
    intro l pend h
    exact ⟨rfl, by simpa [pendAfter] using h⟩
  | cons e t ih =>
    intro l pend h
    cases e with
    | work i =>
      have h' := ih l (pendStep pend (.work i)) (by simpa [wfGo] using h)
      exact ⟨by simpa [wfGo] using h'.1, by simpa [pendAfter] using h'.2⟩
    | done i =>
      have hne : pend i ≠ 0 := by
        by_contra h0
        simp [wfGo, h0] at h
      have h' := ih l (pendStep pend (.done i)) (by simpa [wfGo, hne] using h)
      exact ⟨by simpa [wfGo, hne] using h'.1, by simpa [pendAfter] using h'.2⟩

lemma lockerRunFrom_append : ∀ (t l : List LockEv) (s : LockerState),
    lockerRunFrom s (t ++ l) =
      match lockerRunFrom s t with
      | none => none
      | some s' => lockerRunFrom s' l := by
  intro t
  induction t with
  | nil =>
    intro l s
    rfl
  | cons e t ih =>
    intro l s
    simp only [List.cons_append, lockerRunFrom]
    cases lockerStep s e with
    | none => rfl
    | some s' => exact ih l s'

lemma pendAfter_counts_zero (t : List LockEv) (hwf : wfTrace t = true) (id : String) :
    pendAfter (fun _ => 0) t id + doneCount t id = workCount t id := by
  have h := pendAfter_counts t (fun _ => 0) hwf id
  simpa using h

lemma pendAfter_append : ∀ (t l : List LockEv) (pend : String → Nat),
    pendAfter pend (t ++ l) = pendAfter (pendAfter pend t) l := by
  intro t
  induction t with
  | nil => intro l pend; rfl
  | cons e t ih => intro l pend; simp [pendAfter, ih]

lemma locker_get_stable (s : LockerState) (ev : LockEv) (id : String)
    (P : String → Nat) (hinv : lockerInv P s)
    (hP : 0 < P id) (hwfe : wfGo P [ev] = true)
    (hP2 : 0 < pendStep P ev id) :
    ∃ s', lockerStep s ev = some s' ∧
      get_analysis_lock s' id = get_analysis_lock s id := by
  have hi := hinv id
  cases hlk : s.locks id with
  | none =>
    rw [hlk] at hi
    exact absurd hP (by omega)
  | some e =>
    rw [hlk] at hi
    cases ev with
    | work i =>
      refine ⟨inform_work s i, rfl, ?_⟩
      by_cases hk : i = id
      · subst hk
        rw [get_analysis_lock, get_analysis_lock, inform_work_locks_same s i e hlk, hlk]
        simp
      · have hik : ¬id = i := fun hh => hk hh.symm
        cases hsi : s.locks i with
        | some ei =>
          rw [get_analysis_lock, get_analysis_lock, inform_work_locks_same s i ei hsi]
          simp [hik]
        | none =>
          rw [get_analysis_lock, get_analysis_lock, inform_work_locks_new s i hsi]
          simp [hik]
    | done i =>
      have hnei : P i ≠ 0 := by
        by_contra h0
        simp [wfGo, h0] at hwfe
      have hii := hinv i
      cases hsi : s.locks i with
      | none =>
        rw [hsi] at hii
        exact absurd hii hnei
      | some ei =>
        obtain ⟨s1, hdone, _, htok, hframe⟩ := lockerInv_done P s i ei hinv hsi
        refine ⟨s1, by simp [lockerStep, hdone], ?_⟩
        by_cases hk : i = id
        · subst hk
          have hgt : 1 < P i := by
            have hps : pendStep P (.done i) i = P i - 1 := by simp [pendStep]
            rw [hps] at hP2
            omega
          have hee : e = ei := by
            rw [hlk] at hsi
            exact Option.some.inj hsi
          subst hee
          rw [get_analysis_lock, get_analysis_lock, htok hgt, hlk]
          rfl
        · have hik : id ≠ i := fun hh => hk hh.symm
          rw [get_analysis_lock, get_analysis_lock, hframe id hik]

/-! ## Claim theorem: analysis lock registry -/

/-- C9: for every well-formed call trace (each `inform_work_done(id)`
preceded by a matching unconsumed `inform_work(id)`): the registry
contains an entry for `id` exactly when the number of `inform_work(id)`
calls exceeds the number of `inform_work_done(id)` calls; while that
holds, `get_analysis_lock(id)` succeeds; and across any further call that
keeps the count positive, `get_analysis_lock(id)` returns the same lock
object, so the entry is never pruned between enqueue and execution. -/
theorem claim_C9_lock_registry (t : List LockEv) (ev : LockEv) (id : String) :
    (wfTrace t = true →
      (lockerContains t id = true ↔ doneCount t id < workCount t id)) ∧
    (wfTrace t = true → doneCount t id < workCount t id →
      (lockerGet t id).isSome = true) ∧
    (wfTrace (t ++ [ev]) = true →
      doneCount t id < workCount t id →
      doneCount (t ++ [ev]) id < workCount (t ++ [ev]) id →
      lockerGet (t ++ [ev]) id = lockerGet t id ∧
        (lockerGet (t ++ [ev]) id).isSome = true) := by
  refine ⟨?_, ?_, ?_⟩
  · intro hwf
    obtain ⟨s, hrun, hinv⟩ := lockerRunFrom_inv t (fun _ => 0) initLocker
      lockerInv_init hwf
    have hcnt := pendAfter_counts_zero t hwf id
    have hi := hinv id
    simp only [lockerContains, lockerRun, hrun]
    cases hlk : s.locks id with
    | some e =>
      rw [hlk] at hi
      constructor
      · intro _
        omega
      · intro _
        rfl
    | none =>
      rw [hlk] at hi
      constructor
      · intro hfalse
        simp at hfalse
      · intro hlt
        exact absurd hlt (by omega)
  · intro hwf hlt
    obtain ⟨s, hrun, hinv⟩ := lockerRunFrom_inv t (fun _ => 0) initLocker
      lockerInv_init hwf
    have hcnt := pendAfter_counts_zero t hwf id
    have hi := hinv id
    simp only [lockerGet, lockerRun, hrun]
    cases hlk : s.locks id with
    | some e => simp [get_analysis_lock, hlk]
    | none =>
      rw [hlk] at hi
      exact absurd hlt (by omega)
  · intro hwf2 hlt1 hlt2
    obtain ⟨hwf, hwfe⟩ := wfGo_append t [ev] (fun _ => 0) hwf2
    obtain ⟨s, hrun, hinv⟩ := lockerRunFrom_inv t (fun _ => 0) initLocker
      lockerInv_init hwf
    have hcnt := pendAfter_counts_zero t hwf id
    have hcnt2 := pendAfter_counts_zero (t ++ [ev]) hwf2 id
    have hpe : pendAfter (fun _ => 0) (t ++ [ev]) id
        = pendStep (pendAfter (fun _ => 0) t) ev id := by
      rw [pendAfter_append t [ev] (fun _ => 0)]
      rfl
    have hwork : workCount (t ++ [ev]) id
        = workCount t id + workCount [ev] id := by
      simp [workCount, List.countP_append]
    have hdone : doneCount (t ++ [ev]) id
        = doneCount t id + doneCount [ev] id := by
      simp [doneCount, List.countP_append]
    have hP : 0 < pendAfter (fun _ => 0) t id := by omega
    have hP2 : 0 < pendStep (pendAfter (fun _ => 0) t) ev id := by
      rw [← hpe]
      omega
    obtain ⟨s', hstep, hget⟩ := locker_get_stable s ev id
      (pendAfter (fun _ => 0) t) hinv hP hwfe hP2
    have hrun2 : lockerRunFrom initLocker (t ++ [ev]) = some s' := by
      rw [lockerRunFrom_append t [ev] initLocker, hrun]
      simp [lockerRunFrom, hstep]
    have hgoal1 : lockerGet (t ++ [ev]) id = lockerGet t id := by
      simp only [lockerGet, lockerRun, hrun2, hrun]
      exact hget
    refine ⟨hgoal1, ?_⟩
    rw [hgoal1]
    have hi := hinv id
    simp only [lockerGet, lockerRun, hrun]
    cases hlk : s.locks id with
    | some e => simp [get_analysis_lock, hlk]
    | none =>
      rw [hlk] at hi
      exact absurd hP (by omega)

/-- Witness for C9 at a concrete trace: after `inform_work("a")` the
registry contains `"a"`, `get_analysis_lock` succeeds, and a subsequent
`inform_work("b")` leaves the lock object for `"a"` unchanged. -/
theorem claim_C9_witness :
    lockerContains [LockEv.work "a"] "a" = true ∧
    (lockerGet [LockEv.work "a"] "a").isSome = true ∧
    lockerGet ([LockEv.work "a"] ++ [LockEv.work "b"]) "a"
      = lockerGet [LockEv.work "a"] "a" := by
  have h := claim_C9_lock_registry [LockEv.work "a"] (LockEv.work "b") "a"
  exact ⟨(h.1 (by decide)).mpr (by decide),
    h.2.1 (by decide) (by decide),
    (h.2.2 (by decide) (by decide) (by decide)).1⟩
